import Mathlib

/-!
Shallow embedding of the `em_health` streaming import pipeline
(`em_health/utils/import_xml.py`, `em_health/db_manager.py`,
`em_health/db_client.py`) together with proofs about the claims of the
natural-language specification.

Conventions:
* Python strings are embedded as `String` / `List Char` (ASCII fragment;
  all data relevant to the claims is ASCII).
* Machine integers are `Nat` / `Int` (Python integers are unbounded).
* Fallible code returns `Except String _` / `Option _`.
* `datetime.strptime` is embedded for exactly the five format strings the
  code uses, mirroring CPython's `_strptime` regular expressions
  (including 1-or-2-digit field widths and the offset grammar of `%z`),
  and the range validation performed by the `datetime` constructor
  (year >= 1, day within month, second <= 59, |utc offset| < 24h).
* `astimezone(timezone.utc)` on a naive datetime uses the host's local
  timezone; it is embedded with an explicit `loc` parameter (the local UTC
  offset in microseconds).  Theorems about naive inputs instantiate it.
-/

namespace EmHealth

/-! ### Digits and fixed-width decimal rendering -/

def digitVal (c : Char) : Nat := c.toNat - '0'.toNat

def digitChar (n : Nat) : Char :=
  match n % 10 with
  | 0 => '0' | 1 => '1' | 2 => '2' | 3 => '3' | 4 => '4'
  | 5 => '5' | 6 => '6' | 7 => '7' | 8 => '8' | _ => '9'

/-- `"%02d"` rendering (for values below 100, as produced by `strftime`). -/
def pad2 (n : Nat) : List Char := [digitChar (n / 10), digitChar n]

def pad3 (n : Nat) : List Char := [digitChar (n / 100), digitChar (n / 10), digitChar n]

def pad4 (n : Nat) : List Char :=
  [digitChar (n / 1000), digitChar (n / 100), digitChar (n / 10), digitChar n]

def pad6 (n : Nat) : List Char :=
  [digitChar (n / 100000), digitChar (n / 10000), digitChar (n / 1000),
   digitChar (n / 100), digitChar (n / 10), digitChar n]

/-! ### Field readers of `_strptime` (one per directive used by the code)

Each numeric directive of CPython's `_strptime` is an alternation regex;
because in all five formats used by the code every numeric field is
followed by a non-digit literal (or the end of the string), the regex
backtracking collapses to: take two digits when their value fits the
two-digit alternatives, otherwise fall back to one digit. -/

def rd2or1 (lo2 hi2 lo1 hi1 : Nat) : List Char → Option (Nat × List Char)
  | c1 :: c2 :: rest =>
    if c1.isDigit then
      if c2.isDigit then
        let v := 10 * digitVal c1 + digitVal c2
        if lo2 ≤ v && v ≤ hi2 then some (v, rest)
        else if lo1 ≤ digitVal c1 && digitVal c1 ≤ hi1 then some (digitVal c1, c2 :: rest)
        else none
      else if lo1 ≤ digitVal c1 && digitVal c1 ≤ hi1 then some (digitVal c1, c2 :: rest)
      else none
    else none
  | [c1] =>
    if c1.isDigit && (lo1 ≤ digitVal c1 && digitVal c1 ≤ hi1) then some (digitVal c1, [])
    else none
  | [] => none

def rdMonth : List Char → Option (Nat × List Char) := rd2or1 1 12 1 9
def rdDay : List Char → Option (Nat × List Char) := rd2or1 1 31 1 9
def rdHour : List Char → Option (Nat × List Char) := rd2or1 0 23 0 9
def rdMinute : List Char → Option (Nat × List Char) := rd2or1 0 59 0 9
def rdSecond : List Char → Option (Nat × List Char) := rd2or1 0 61 0 9

/-- `%Y`: exactly four digits. -/
def rd4 : List Char → Option (Nat × List Char)
  | a :: b :: c :: d :: rest =>
    if a.isDigit && b.isDigit && c.isDigit && d.isDigit then
      some (1000 * digitVal a + 100 * digitVal b + 10 * digitVal c + digitVal d, rest)
    else none
  | _ => none

def lit (ch : Char) : List Char → Option (List Char)
  | c :: rest => if c = ch then some rest else none
  | [] => none

/-- Case-insensitive literal: CPython compiles the format regexes with
`re.IGNORECASE`, so the letter literals `T` and `Z` of the five formats
also match their lowercase forms.  (The `Z` *alternative inside `%z`* is
explicitly case-sensitive — `(?-i:Z)` — and is matched exactly in `rdTz`.) -/
def litCI (ch : Char) : List Char → Option (List Char)
  | c :: rest => if c = ch || c = ch.toLower then some rest else none
  | [] => none

def natOfDigits (l : List Char) : Nat := l.foldl (fun acc c => 10 * acc + digitVal c) 0

/-- `%f`: one to six digits, right-padded to microseconds. -/
def rdFrac (l : List Char) : Option (Nat × List Char) :=
  let ds := l.takeWhile Char.isDigit
  if ds.length = 0 || 6 < ds.length then none
  else some (natOfDigits ds * 10 ^ (6 - ds.length), l.dropWhile Char.isDigit)

/-- Two arbitrary digits (`\d\d`). -/
def rd2digits : List Char → Option (Nat × List Char)
  | a :: b :: rest =>
    if a.isDigit && b.isDigit then some (10 * digitVal a + digitVal b, rest) else none
  | _ => none

/-- `[0-5]\d`: a two-digit value below 60. -/
def rd2mm : List Char → Option (Nat × List Char)
  | a :: b :: rest =>
    if a.isDigit && b.isDigit && digitVal a ≤ 5 then some (10 * digitVal a + digitVal b, rest)
    else none
  | _ => none

/-- Optional seconds-with-fraction tail of `%z`: `(:?[0-5]\d(\.\d{1,6})?)?`.
Returns `(seconds, fractional microseconds, remainder)`; when the group
does not match, the remainder is the untouched input. -/
def rdTzSec (l : List Char) : Nat × Nat × List Char :=
  let l1 := if l.head? = some ':' then l.tail else l
  match rd2mm l1 with
  | none => (0, 0, l)
  | some (ss, r) =>
    if r.head? = some '.' then
      let ds := r.tail.takeWhile Char.isDigit
      if 1 ≤ ds.length && ds.length ≤ 6 then
        (ss, natOfDigits ds * 10 ^ (6 - ds.length), r.tail.dropWhile Char.isDigit)
      else (ss, 0, r)
    else (ss, 0, r)

/-- `%z`: `[+-]\d\d:?[0-5]\d(:?[0-5]\d(\.\d{1,6})?)?|Z`.
Returns the UTC offset in microseconds. -/
def rdTz : List Char → Option (Int × List Char)
  | [] => none
  | c :: rest =>
    if c = 'Z' then some (0, rest)
    else if c = '+' || c = '-' then
      match rd2digits rest with
      | none => none
      | some (hh, r1) =>
        let r1' := if r1.head? = some ':' then r1.tail else r1
        match rd2mm r1' with
        | none => none
        | some (mm, r2) =>
          let (ss, fr, r3) := rdTzSec r2
          let mag : Int := ((hh * 3600 + mm * 60 + ss) * 1000000 + fr : Nat)
          some (if c = '-' then -mag else mag, r3)
    else none

/-! ### The embedded `datetime` value -/

structure PyDateTime where
  year : Nat
  month : Nat
  day : Nat
  hour : Nat
  minute : Nat
  second : Nat
  usec : Nat
  /-- UTC offset in microseconds; `none` models a naive datetime. -/
  tz : Option Int
deriving Repr, DecidableEq

def isLeap (y : Nat) : Bool := (y % 4 == 0 && y % 100 != 0) || y % 400 == 0

def daysInMonth (y m : Nat) : Nat :=
  match m with
  | 2 => if isLeap y then 29 else 28
  | 4 => 30 | 6 => 30 | 9 => 30 | 11 => 30
  | _ => 31

/-- Validation performed by the `datetime` constructor beyond what the
`_strptime` regexes already ensure (plus the `timezone` 24h offset bound). -/
def dtValid (y mo d s : Nat) (tz : Option Int) : Bool :=
  1 ≤ y && d ≤ daysInMonth y mo && s ≤ 59 &&
    (match tz with
     | none => true
     | some o => o < 86400000000 && -86400000000 < o)

def mkDT (y mo d h mi s us : Nat) (tz : Option Int) : Option PyDateTime :=
  if dtValid y mo d s tz then some ⟨y, mo, d, h, mi, s, us, tz⟩ else none

/-- Common prefix `%Y-%m-%dT%H:%M:%S` of all five formats. -/
def rdCore (l : List Char) : Option ((Nat × Nat × Nat × Nat × Nat × Nat) × List Char) :=
  match rd4 l with
  | none => none
  | some (y, l) =>
    match lit '-' l with
    | none => none
    | some l =>
      match rdMonth l with
      | none => none
      | some (mo, l) =>
        match lit '-' l with
        | none => none
        | some l =>
          match rdDay l with
          | none => none
          | some (d, l) =>
            match litCI 'T' l with
            | none => none
            | some l =>
              match rdHour l with
              | none => none
              | some (h, l) =>
                match lit ':' l with
                | none => none
                | some l =>
                  match rdMinute l with
                  | none => none
                  | some (mi, l) =>
                    match lit ':' l with
                    | none => none
                    | some l =>
                      match rdSecond l with
                      | none => none
                      | some (s, l) => some ((y, mo, d, h, mi, s), l)

/-- `"%Y-%m-%dT%H:%M:%S.%fZ"` (naive result). -/
def strptimeA (l : List Char) : Option PyDateTime :=
  match rdCore l with
  | none => none
  | some ((y, mo, d, h, mi, s), r) =>
    match lit '.' r with
    | none => none
    | some r =>
      match rdFrac r with
      | none => none
      | some (f, r) =>
        match litCI 'Z' r with
        | none => none
        | some r => if r.isEmpty then mkDT y mo d h mi s f none else none

/-- `"%Y-%m-%dT%H:%M:%SZ"` (naive result). -/
def strptimeB (l : List Char) : Option PyDateTime :=
  match rdCore l with
  | none => none
  | some ((y, mo, d, h, mi, s), r) =>
    match litCI 'Z' r with
    | none => none
    | some r => if r.isEmpty then mkDT y mo d h mi s 0 none else none

/-- `"%Y-%m-%dT%H:%M:%S.%fZZ"` (naive result). -/
def strptimeC (l : List Char) : Option PyDateTime :=
  match rdCore l with
  | none => none
  | some ((y, mo, d, h, mi, s), r) =>
    match lit '.' r with
    | none => none
    | some r =>
      match rdFrac r with
      | none => none
      | some (f, r) =>
        match litCI 'Z' r with
        | none => none
        | some r =>
          match litCI 'Z' r with
          | none => none
          | some r => if r.isEmpty then mkDT y mo d h mi s f none else none

/-- `"%Y-%m-%dT%H:%M:%S.%f%z"` (aware result). -/
def strptimeD (l : List Char) : Option PyDateTime :=
  match rdCore l with
  | none => none
  | some ((y, mo, d, h, mi, s), r) =>
    match lit '.' r with
    | none => none
    | some r =>
      match rdFrac r with
      | none => none
      | some (f, r) =>
        match rdTz r with
        | none => none
        | some (o, r) => if r.isEmpty then mkDT y mo d h mi s f (some o) else none

/-- `"%Y-%m-%dT%H:%M:%S%z"` (aware result). -/
def strptimeE (l : List Char) : Option PyDateTime :=
  match rdCore l with
  | none => none
  | some ((y, mo, d, h, mi, s), r) =>
    match rdTz r with
    | none => none
    | some (o, r) => if r.isEmpty then mkDT y mo d h mi s 0 (some o) else none

/-- The fixed priority order of `ImportXML.__parse_ts_to_utc`. -/
def tryFormats (l : List Char) : Option PyDateTime :=
  match strptimeA l with
  | some dt => some dt
  | none =>
    match strptimeB l with
    | some dt => some dt
    | none =>
      match strptimeC l with
      | some dt => some dt
      | none =>
        match strptimeD l with
        | some dt => some dt
        | none => strptimeE l

/-! ### `astimezone(timezone.utc)` and `strftime` -/

def usPerDay : Int := 86400000000

def nextDay : Nat × Nat × Nat → Nat × Nat × Nat
  | (y, m, d) =>
    if d < daysInMonth y m then (y, m, d + 1)
    else if m < 12 then (y, m + 1, 1)
    else (y + 1, 1, 1)

def prevDay : Nat × Nat × Nat → Nat × Nat × Nat
  | (y, m, d) =>
    if 1 < d then (y, m, d - 1)
    else if 1 < m then (y, m - 1, daysInMonth y (m - 1))
    else (y - 1, 12, 31)

def addDays (k : Int) (date : Nat × Nat × Nat) : Nat × Nat × Nat :=
  if 0 ≤ k then nextDay^[k.toNat] date else prevDay^[(-k).toNat] date

/-- `dt.astimezone(timezone.utc)`.  For a naive `dt` Python interprets the
fields in the host local timezone, whose UTC offset is the explicit
parameter `loc` (microseconds). -/
def astimezoneUtc (loc : Int) (dt : PyDateTime) : PyDateTime :=
  let off := dt.tz.getD loc
  let usod : Int := ((dt.hour * 3600 + dt.minute * 60 + dt.second) * 1000000 + dt.usec : Nat)
  let t := usod - off
  let shift := t / usPerDay
  let rem := (t % usPerDay).toNat
  let date := addDays shift (dt.year, dt.month, dt.day)
  { year := date.1, month := date.2.1, day := date.2.2,
    hour := rem / 1000000 / 3600, minute := rem / 1000000 / 60 % 60,
    second := rem / 1000000 % 60, usec := rem % 1000000, tz := some 0 }

/-- `strftime("%Y-%m-%d %H:%M:%S.%f%z")` of the aware UTC result (for
which `%z` renders as `"+0000"`).  `%f` and `%z` are expanded by CPython
itself, the rest by the platform `strftime`; all two-digit fields are
zero-padded on every platform, while the zero-padding of `%Y` below year
1000 is platform-defined (glibc prints such years unpadded), so this
rendering is faithful for `1000 ≤ year ≤ 9999` and shape facts about
the output are only asserted in that regime. -/
def renderStrf (dt : PyDateTime) : List Char :=
  pad4 dt.year ++ '-' :: pad2 dt.month ++ '-' :: pad2 dt.day ++
  ' ' :: pad2 dt.hour ++ ':' :: pad2 dt.minute ++ ':' :: pad2 dt.second ++
  '.' :: pad6 dt.usec ++ ['+', '0', '0', '0', '0']

def daysBeforeYear (y : Nat) : Nat :=
  365 * (y - 1) + (y - 1) / 4 - (y - 1) / 100 + (y - 1) / 400

def daysBeforeMonth (y m : Nat) : Nat :=
  let L : Nat := if isLeap y then 1 else 0
  match m with
  | 1 => 0 | 2 => 31 | 3 => 59 + L | 4 => 90 + L | 5 => 120 + L | 6 => 151 + L
  | 7 => 181 + L | 8 => 212 + L | 9 => 243 + L | 10 => 273 + L | 11 => 304 + L
  | _ => 334 + L

def daysFromCivil (y m d : Nat) : Nat := daysBeforeYear y + daysBeforeMonth y m + (d - 1)

/-- Microseconds since the epoch denoted by the naive fields of `dt`. -/
def epochUs (dt : PyDateTime) : Int :=
  ((daysFromCivil dt.year dt.month dt.day * 86400
    + dt.hour * 3600 + dt.minute * 60 + dt.second) * 1000000 + dt.usec : Nat)

/-- The UTC instant denoted by a parsed datetime (`loc` supplies the host
local offset for naive values): microseconds since `datetime.min`. -/
def utcInstant (loc : Int) (dt : PyDateTime) : Int := epochUs dt - dt.tz.getD loc

/-- One past `datetime.max = 9999-12-31 23:59:59.999999` in microseconds
since `datetime.min`; `astimezone` raises `OverflowError` exactly when the
UTC result falls outside `[0, maxInstant)`. -/
def maxInstant : Int := ((daysFromCivil 10000 1 1 * 86400 * 1000000 : Nat) : Int)

/-- Python `s[:-n]`. -/
def dropSuffix (n : Nat) (l : List Char) : List Char := l.take (l.length - n)

/-- Python `s[-n:]`. -/
def takeSuffix (n : Nat) (l : List Char) : List Char := l.drop (l.length - n)

/-- `ts_fixed = ts[:-3] + ts[-2:]` — deletes the third character from the
end (meant to strip the colon of a trailing `±HH:MM` offset). -/
def tsFix (l : List Char) : List Char := dropSuffix 3 l ++ takeSuffix 2 l

/-- `ImportXML.__parse_ts_to_utc` (`import_xml.py` lines 208–232).
`loc` is the host-local UTC offset used by `astimezone` for naive results.
When the UTC result falls outside `datetime`'s range, `astimezone` raises
`OverflowError`, which is *not* a `ValueError`: it escapes the
`except ValueError` of the format loop (aborting it) and propagates out of
every caller in the pipeline, exactly like the final `ValueError` does in
this embedding's callers; the distinct error string keeps the two failure
modes apart. -/
def parse_ts_to_utc (loc : Int) (ts : String) : Except String String :=
  match tryFormats (tsFix ts.data) with
  | some dt =>
    if 0 ≤ utcInstant loc dt ∧ utcInstant loc dt < maxInstant then
      .ok (String.mk (dropSuffix 3 (renderStrf (astimezoneUtc loc dt))))
    else .error "OverflowError: date value out of range"
  | none => .error ("Unsupported time format: " ++ ts)

/-! ### `ImportXML.__convert_value` -/

/-- The PostgreSQL `COPY` NULL sentinel `\N`. -/
def NULLSENT : String := "\\N"

/-- Python `str(value)` for `value : Optional[str]` (`str(None) = "None"`). -/
def pyStrOfOpt : Option String → String
  | some s => s
  | none => "None"

def isSpaceChar (c : Char) : Bool :=
  c = ' ' || c = '\t' || c = '\n' || c = '\r' || c = '\x0b' || c = '\x0c'

def stripWs (l : List Char) : List Char :=
  ((l.dropWhile isSpaceChar).reverse.dropWhile isSpaceChar).reverse

/-- Digit run with Python's single-underscore-between-digits rule. -/
def digitsRun (acc : Nat) : List Char → Option Nat
  | [] => some acc
  | '_' :: c :: rest => if c.isDigit then digitsRun (10 * acc + digitVal c) rest else none
  | c :: rest => if c.isDigit then digitsRun (10 * acc + digitVal c) rest else none

def digitsVal : List Char → Option Nat
  | c :: rest => if c.isDigit then digitsRun (digitVal c) rest else none
  | [] => none

/-- Python `int(s)` on a string (ASCII fragment): optional surrounding
whitespace, optional sign, decimal digits with underscore separators. -/
def pyIntOfString (s : String) : Option Int :=
  match stripWs s.data with
  | '+' :: rest => (digitsVal rest).map Int.ofNat
  | '-' :: rest => (digitsVal rest).map (fun n => -(n : Int))
  | rest => (digitsVal rest).map Int.ofNat

def convErrMsg (param_id : String) (value : Option String) (value_type : String) : String :=
  "Cannot convert '" ++ pyStrOfOpt value ++ "' to " ++ value_type ++ " for param " ++ param_id

/-- `ImportXML.__convert_value` (`import_xml.py` lines 234–251).
`value` is the text of the `<Value>` element (`None` when empty). -/
def convert_value (param_id : String) (value : Option String) (value_type : String) :
    Except String (String × String) :=
  if value_type = "str" then .ok (NULLSENT, pyStrOfOpt value)
  else if value_type = "float" then .ok (pyStrOfOpt value, NULLSENT)
  else if value_type = "int" then
    match value with
    | none => .error (convErrMsg param_id value value_type)
    | some s =>
      match pyIntOfString s with
      | some i => .ok (toString i, NULLSENT)
      | none => .error (convErrMsg param_id value value_type)
  else .error (convErrMsg param_id value value_type)

/-- Whether a raw text can be interpreted as a Python float
(`float(s)` succeeds): spec-side reference for "interpretable as the
declared type"; the code never performs this check for `float`. -/
def floatMantissa : List Char → Bool
  | l =>
    let intPart := l.takeWhile Char.isDigit
    match l.dropWhile Char.isDigit with
    | [] => intPart ≠ []
    | '.' :: r =>
      let fracPart := r.takeWhile Char.isDigit
      (intPart ≠ [] || fracPart ≠ []) && (r.dropWhile Char.isDigit) = []
    | _ => false

def floatBody (l : List Char) : Bool :=
  let lower := l.map Char.toLower
  if lower = "inf".data || lower = "infinity".data || lower = "nan".data then true
  else
    match l.reverse.takeWhile (fun c => c ≠ 'e' && c ≠ 'E') with
    | expRev =>
      if expRev.length = l.length then floatMantissa l
      else
        let mant := l.take (l.length - expRev.length - 1)
        let ex := expRev.reverse
        let ex' := match ex with
          | '+' :: r => r
          | '-' :: r => r
          | r => r
        floatMantissa mant && ex' ≠ [] && ex'.all Char.isDigit

def pyFloatAcceptable (s : String) : Bool :=
  match stripWs s.data with
  | '+' :: rest => floatBody rest
  | '-' :: rest => floatBody rest
  | rest => rest ≠ [] && floatBody rest

/-! ### `ImportXML.parse_values`

The XML event stream is embedded as the list of top-level elements the
iterator visits; a `<ValueData>` element carries its `ParameterID` and the
`(Timestamp, Value-text)` pairs of its `<ParameterValue>` children. -/

structure ValueEntry where
  ts : String
  raw : Option String
deriving Repr, DecidableEq

inductive XmlElem where
  | values (startT endT : Option String)
  | valueData (paramId : Nat) (entries : List ValueEntry)
  | other
deriving Repr, DecidableEq

/-- `params_dict` lookup (`params_dict.get(param_id)`), reduced to the only
field `parse_values` reads: the value type. -/
def lookupType (pid : Nat) (params : List (Nat × String)) : Option String :=
  (params.find? (fun p => p.1 == pid)).map (·.2)

/-- The per-`<ParameterValue>` loop body of `parse_values`.  A `ValueError`
raised by timestamp parsing or value conversion is not caught anywhere in
the generator, so it terminates the iteration: the result is the list of
rows yielded before the failure, plus the error that escaped (if any). -/
def runEntries (loc : Int) (instrS pidS ty : String) :
    List ValueEntry → List String × Option String
  | [] => ([], none)
  | e :: rest =>
    match parse_ts_to_utc loc e.ts with
    | .error m => ([], some m)
    | .ok tss =>
      match convert_value pidS e.raw ty with
      | .error m => ([], some m)
      | .ok (vn, vt) =>
        let row := String.intercalate "\t" [tss, instrS, pidS, vn, vt]
        let (rs, err) := runEntries loc instrS pidS ty rest
        (row :: rs, err)

/-- `ImportXML.parse_values` (`import_xml.py` lines 156–192): the lazy row
generator, embedded as the finite list of yielded rows together with the
error that terminated the generator, when one escaped. -/
def parse_values (loc : Int) (instr_id : Int) (params : List (Nat × String)) :
    List XmlElem → List String × Option String
  | [] => ([], none)
  | el :: rest =>
    match el with
    | .valueData pid entries =>
      match lookupType pid params with
      | none => parse_values loc instr_id params rest
      | some ty =>
        let (rows, err) := runEntries loc (toString instr_id) (toString pid) ty entries
        match err with
        | some m => (rows, some m)
        | none =>
          let (rs, e2) := parse_values loc instr_id params rest
          (rows ++ rs, e2)
    | _ => parse_values loc instr_id params rest

/-! ### `DatabaseManager.write_data` bulk streaming mode -/

/-- `"\t".join(col for col in row) + "\n"` for a row that is a tuple of
column strings. -/
def serializeLine (row : List String) : String := String.intercalate "\t" row

def serializeRow (row : List String) : String := serializeLine row ++ "\n"

/-- The loop of `stream_chunks` (`db_manager.py` lines 245–257): `buf` is
the join of the accumulated buffer, `size` the accumulated byte count. -/
def streamGo (maxSize : Nat) (buf : String) (size : Nat) :
    List (List String) → List String
  | [] => if buf = "" then [] else [buf]
  | row :: rest =>
    let newrow := serializeRow row
    let size' := size + newrow.utf8ByteSize
    let buf' := buf ++ newrow
    if maxSize ≤ size' then buf' :: streamGo maxSize "" 0 rest
    else streamGo maxSize buf' size' rest

def stream_chunks (rows : List (List String)) (maxSize : Nat) : List String :=
  streamGo maxSize "" 0 rows

/-- Iterating a Python `str` yields its characters as 1-character strings;
this is what `"\t".join(col for col in row)` receives when `write_data` is
fed the strings yielded by `parse_values`. -/
def pyIterStr (s : String) : List String := s.data.map (fun c => String.mk [c])

/-- The writer side of the actual pipeline `parse_values` → `write_data`:
each yielded row (a `str`) is re-serialized by `stream_chunks` as an
iterable of its characters. -/
def write_data_chunks (rows : List String) (maxSize : Nat) : List String :=
  stream_chunks (rows.map pyIterStr) maxSize

/-! ### Metadata upsert (`DatabaseManager.add_instrument` /
`DatabaseManager.add_enumerations`, `db_manager.py` lines 71–159)

The store is embedded as explicit tables.  The SQL schema is not part of
the sources; its uniqueness constraints are modelled from the spec:
an `EnumerationType` is identified by `(instrumentId, enumName)` and an
enumeration member is write-once per `(enumId, memberName)` (spec §3),
so those pairs carry unique constraints.  A plain `INSERT` that hits an
existing key raises `UniqueViolation`; `ON CONFLICT DO NOTHING` skips it. -/

structure InstRow where
  id : Nat
  instrument : String
  serial : Int
  model : String
  name : String
  template : String
  server : String
deriving Repr, DecidableEq

structure InstrDict where
  instrument : String
  serial : Int
  model : String
  name : String
  template : String
  server : String
deriving Repr, DecidableEq

structure DbState where
  instruments : List InstRow
  nextInstId : Nat
  /-- `enum_types` rows `(id, instrument_id, name)`. -/
  enumTypes : List (Nat × Nat × String)
  nextEnumTypeId : Nat
  /-- `enum_values` rows `(enum_id, member_name, value)`. -/
  enumValues : List (Nat × String × Int)
deriving Repr, DecidableEq

def DbState.empty : DbState := ⟨[], 1, [], 1, []⟩

/-- `DatabaseManager.add_instrument`: `SELECT id FROM instruments WHERE
instrument = %s OR serial = %s`; insert only `WHERE NOT EXISTS`; the
returned name is taken from the input dict, not from the store. -/
def dbm_add_instrument (st : DbState) (d : InstrDict) : DbState × (Nat × String) :=
  match st.instruments.find? (fun r => r.instrument == d.instrument || r.serial == d.serial) with
  | some r => (st, (r.id, d.name))
  | none =>
    let row : InstRow := ⟨st.nextInstId, d.instrument, d.serial, d.model, d.name,
                          d.template, d.server⟩
    ({ st with instruments := st.instruments ++ [row], nextInstId := st.nextInstId + 1 },
     (st.nextInstId, d.name))

/-- `INSERT INTO enum_types (instrument_id, name) VALUES (...) ON CONFLICT
DO NOTHING`, under the spec-modelled unique key `(instrument_id, name)`. -/
def insertEnumType (st : DbState) (iid : Nat) (nm : String) : DbState :=
  if st.enumTypes.any (fun r => r.2.1 == iid && r.2.2 == nm) then st
  else { st with enumTypes := st.enumTypes ++ [(st.nextEnumTypeId, iid, nm)],
                 nextEnumTypeId := st.nextEnumTypeId + 1 }

/-- `SELECT id, name FROM enum_types WHERE instrument_id = %s`, read as the
dict `{name: id}`. -/
def fetchEnumIds (st : DbState) (iid : Nat) : List (String × Nat) :=
  (st.enumTypes.filter (fun r => r.2.1 == iid)).map (fun r => (r.2.2, r.1))

def lookupStr (key : String) (m : List (String × Nat)) : Option Nat :=
  (m.find? (fun p => p.1 == key)).map (·.2)

/-- `INSERT INTO enum_values (enum_id, member_name, value) VALUES (...)`
with no conflict clause: raises `UniqueViolation` on a duplicate
`(enum_id, member_name)` key. -/
def insertEnumValue (st : DbState) (eid : Nat) (mem : String) (v : Int) :
    Except String DbState :=
  if st.enumValues.any (fun r => r.1 == eid && r.2.1 == mem) then
    .error "UniqueViolation: duplicate key in enum_values"
  else .ok { st with enumValues := st.enumValues ++ [(eid, mem, v)] }

def insertEnumValues (st : DbState) (rows : List (Nat × String × Int)) :
    Except String DbState :=
  match rows with
  | [] => .ok st
  | (eid, mem, v) :: rest =>
    match insertEnumValue st eid mem v with
    | .error m => .error m
    | .ok st' => insertEnumValues st' rest

/-- `DatabaseManager.add_enumerations` (`db_manager.py` lines 111–159):
conflict-ignoring batch insert of `enum_types`, fetch of the name→id map,
then a conflict-unprotected batch insert of all member rows. -/
def dbm_add_enumerations (st : DbState) (iid : Nat)
    (enums : List (String × List (String × Int))) :
    Except String (DbState × List (String × Nat)) :=
  let st1 := enums.foldl (fun s e => insertEnumType s iid e.1) st
  let ids := fetchEnumIds st1 iid
  let rows := enums.flatMap (fun e =>
    e.2.map (fun mv => ((lookupStr e.1 ids).getD 0, mv.1, mv.2)))
  match insertEnumValues st1 rows with
  | .error m => .error m
  | .ok st2 => .ok (st2, ids)

/-! ### Shape checkers for rendered timestamps -/

inductive ShapeTok where
  | dig
  | sign
  | ch (c : Char)
deriving Repr, DecidableEq

def checkShape : List ShapeTok → List Char → Bool
  | [], [] => true
  | .dig :: ts, c :: cs => c.isDigit && checkShape ts cs
  | .sign :: ts, c :: cs => (c = '+' || c = '-') && checkShape ts cs
  | .ch a :: ts, c :: cs => (c = a) && checkShape ts cs
  | _, _ => false

/-- Shape of what the code actually returns:
`YYYY-MM-DD HH:MM:SS.ffffff+0` (six fractional digits, offset cut to `+0`). -/
def actualOutShape : List ShapeTok :=
  [.dig, .dig, .dig, .dig, .ch '-', .dig, .dig, .ch '-', .dig, .dig, .ch ' ',
   .dig, .dig, .ch ':', .dig, .dig, .ch ':', .dig, .dig, .ch '.',
   .dig, .dig, .dig, .dig, .dig, .dig, .ch '+', .ch '0']

/-- Shape claimed by the spec: `YYYY-MM-DD HH:MM:SS.mmm±HHMM`
(exactly three fractional digits, four-digit offset). -/
def claimedOutShape : List ShapeTok :=
  [.dig, .dig, .dig, .dig, .ch '-', .dig, .dig, .ch '-', .dig, .dig, .ch ' ',
   .dig, .dig, .ch ':', .dig, .dig, .ch ':', .dig, .dig, .ch '.',
   .dig, .dig, .dig, .sign, .dig, .dig, .dig, .dig]

/-! ### Helper lemmas -/

theorem isDigit_digitChar (n : Nat) : (digitChar n).isDigit = true := by
  have h : n % 10 < 10 := Nat.mod_lt _ (by norm_num)
  unfold digitChar
  generalize n % 10 = k at h
  interval_cases k <;> rfl

theorem digitVal_digitChar (n : Nat) : digitVal (digitChar n) = n % 10 := by
  have h : n % 10 < 10 := Nat.mod_lt _ (by norm_num)
  unfold digitChar
  generalize n % 10 = k at h ⊢
  interval_cases k <;> rfl

/-- `dropSuffix 3` of the rendered `strftime` output, in explicit form. -/
theorem dropSuffix_render (dt : PyDateTime) :
    dropSuffix 3 (renderStrf dt) =
      [digitChar (dt.year / 1000), digitChar (dt.year / 100), digitChar (dt.year / 10),
       digitChar dt.year, '-', digitChar (dt.month / 10), digitChar dt.month, '-',
       digitChar (dt.day / 10), digitChar dt.day, ' ', digitChar (dt.hour / 10),
       digitChar dt.hour, ':', digitChar (dt.minute / 10), digitChar dt.minute, ':',
       digitChar (dt.second / 10), digitChar dt.second, '.',
       digitChar (dt.usec / 100000), digitChar (dt.usec / 10000), digitChar (dt.usec / 1000),
       digitChar (dt.usec / 100), digitChar (dt.usec / 10), digitChar dt.usec, '+', '0'] := rfl

theorem actualOutShape_render (dt : PyDateTime) :
    checkShape actualOutShape (dropSuffix 3 (renderStrf dt)) = true := by
  rw [dropSuffix_render]
  simp [checkShape, actualOutShape, isDigit_digitChar]

/-! ### Claim C3 -/

/-- C3 (counterexample): the input `2025-05-18T10:39:36.982+01:00` matches a
known format, but the normalizer's output keeps all six microsecond digits
and truncates the `+0000` offset to `+0` (the `[:-3]` slice is applied after
`%z` is appended), so it is not of the claimed fixed-width form
`YYYY-MM-DD HH:MM:SS.mmm±HHMM`. -/
theorem c3_counterexample :
    parse_ts_to_utc 0 "2025-05-18T10:39:36.982+01:00" = .ok "2025-05-18 09:39:36.982000+0"
    ∧ checkShape claimedOutShape ("2025-05-18 09:39:36.982000+0").data = false := ⟨rfl, rfl⟩

/-- C3 (amended): for every input string, exactly one of three things
happens.  Either some known format matches the colon-stripped string
(case-insensitively in the letter literals `T`/`Z`, as `_strptime`
compiles the patterns with `re.IGNORECASE`) and the UTC instant is
representable, and the normalizer returns a rendering of the fixed-width
form `YYYY-MM-DD HH:MM:SS.ffffff+0` — six fractional digits, offset
truncated to `+0`; the four-digit year is asserted for UTC years ≥ 1000,
below which glibc's `%Y` drops leading zeros.  Or a format matches but
the UTC result leaves `datetime`'s range, and `astimezone` raises
`OverflowError` — not a `ValueError`, so it escapes the format loop and
the whole pipeline.  Or no format matches and the function raises
`ValueError: Unsupported time format`. -/
theorem c3_known_format_renders_utc (loc : Int) (ts : String) :
    (∃ dt out, tryFormats (tsFix ts.data) = some dt
        ∧ 0 ≤ utcInstant loc dt ∧ utcInstant loc dt < maxInstant
        ∧ parse_ts_to_utc loc ts = .ok out
        ∧ (1000 ≤ (astimezoneUtc loc dt).year →
            checkShape actualOutShape out.data = true))
    ∨ (∃ dt, tryFormats (tsFix ts.data) = some dt
        ∧ ¬ (0 ≤ utcInstant loc dt ∧ utcInstant loc dt < maxInstant)
        ∧ parse_ts_to_utc loc ts = .error "OverflowError: date value out of range")
    ∨ (tryFormats (tsFix ts.data) = none ∧
        parse_ts_to_utc loc ts = .error ("Unsupported time format: " ++ ts)) := by
  cases h : tryFormats (tsFix ts.data) with
  | none => exact Or.inr (Or.inr ⟨rfl, by simp [parse_ts_to_utc, h]⟩)
  | some dt =>
    by_cases hg : 0 ≤ utcInstant loc dt ∧ utcInstant loc dt < maxInstant
    · exact Or.inl ⟨dt, String.mk (dropSuffix 3 (renderStrf (astimezoneUtc loc dt))),
        rfl, hg.1, hg.2, by simp [parse_ts_to_utc, h, hg],
        fun _ => actualOutShape_render _⟩
    · exact Or.inr (Or.inl ⟨dt, rfl, hg, by simp [parse_ts_to_utc, h, hg]⟩)

/-! ### Claim C10 -/

/-- C10: for a `string`-typed parameter with an absent raw value, the
encoder does not fail and returns the numeric slot as the NULL sentinel and
the text slot as the literal string `"None"` (Python's `str(None)`). -/
theorem c10_none_string_value (pid : String) :
    convert_value pid none "str" = .ok (NULLSENT, "None") := rfl

/-! ### Claim C5 -/

/-- C5 (counterexample): for a `float`-typed parameter the encoder never
checks convertibility: the raw text `"abc"` cannot be interpreted as a
float, yet `convert_value` succeeds and copies it into the numeric slot. -/
theorem c5_counterexample :
    convert_value "7" (some "abc") "float" = .ok ("abc", NULLSENT)
    ∧ pyFloatAcceptable "abc" = false := ⟨rfl, rfl⟩

/-- C5 (amended): the encoder fails exactly when the type is `int` and the
raw value is absent or not an integer literal, or the type is unknown; on
success the populated slot is selected by the type and the other slot is
the NULL sentinel (`float` text is passed through unvalidated; an absent
value under `str`/`float` becomes the literal `"None"`). -/
theorem c5_encoder_error_characterization (pid : String) (v : Option String) (vt : String) :
    ((convert_value pid v vt).isOk = true ↔
      vt = "str" ∨ vt = "float" ∨
        (vt = "int" ∧ ∃ s n, v = some s ∧ pyIntOfString s = some n))
    ∧ ∀ num txt, convert_value pid v vt = .ok (num, txt) →
        (vt = "str" ∧ num = NULLSENT ∧ txt = pyStrOfOpt v) ∨
        (vt = "float" ∧ num = pyStrOfOpt v ∧ txt = NULLSENT) ∨
        (vt = "int" ∧ txt = NULLSENT ∧
          ∃ s n, v = some s ∧ pyIntOfString s = some n ∧ num = toString n) := by
  constructor
  · by_cases h1 : vt = "str"
    · subst h1; simp [convert_value, Except.isOk, Except.toBool]
    · by_cases h2 : vt = "float"
      · subst h2; simp [convert_value, Except.isOk, Except.toBool]
      · by_cases h3 : vt = "int"
        · subst h3
          cases v with
          | none => simp [convert_value, Except.isOk, Except.toBool]
          | some s =>
            cases hp : pyIntOfString s with
            | none => simp [convert_value, Except.isOk, Except.toBool, hp]
            | some n => simp [convert_value, Except.isOk, Except.toBool, hp]
        · simp [convert_value, Except.isOk, Except.toBool, h1, h2, h3]
  · intro num txt h
    by_cases h1 : vt = "str"
    · subst h1
      simp [convert_value] at h
      obtain ⟨ha, hb⟩ := h
      subst ha; subst hb
      exact Or.inl ⟨rfl, rfl, rfl⟩
    · by_cases h2 : vt = "float"
      · subst h2
        simp [convert_value] at h
        obtain ⟨ha, hb⟩ := h
        subst ha; subst hb
        exact Or.inr (Or.inl ⟨rfl, rfl, rfl⟩)
      · by_cases h3 : vt = "int"
        · subst h3
          cases v with
          | none => simp [convert_value] at h
          | some s =>
            cases hp : pyIntOfString s with
            | none => simp [convert_value, hp] at h
            | some n =>
              simp [convert_value, hp] at h
              obtain ⟨ha, hb⟩ := h
              subst ha; subst hb
              exact Or.inr (Or.inr ⟨rfl, rfl, s, n, rfl, hp, rfl⟩)
        · simp [convert_value, h1, h2, h3] at h

/-- C5 witness: concrete instantiation of the success part of
`c5_encoder_error_characterization` at an `int` parameter. -/
theorem c5_witness :
    ("int" = "str" ∧ ("42" : String) = NULLSENT ∧ NULLSENT = pyStrOfOpt (some "42")) ∨
    ("int" = "float" ∧ ("42" : String) = pyStrOfOpt (some "42") ∧ NULLSENT = NULLSENT) ∨
    ("int" = "int" ∧ NULLSENT = NULLSENT ∧
      ∃ s n, (some "42" : Option String) = some s ∧ pyIntOfString s = some n ∧
        ("42" : String) = toString n) :=
  (c5_encoder_error_characterization "9" (some "42") "int").2 "42" NULLSENT rfl

/-! ### Claim C9 -/

/-- C9: a value block whose `paramId` is absent from the parameter table
yields zero rows and the generator continues with the remaining elements
exactly as if the block were not there. -/
theorem c9_unknown_param_block_skipped (loc instr_id : Int) (params : List (Nat × String))
    (pid : Nat) (entries : List ValueEntry) (rest : List XmlElem)
    (h : lookupType pid params = none) :
    parse_values loc instr_id params (.valueData pid entries :: rest)
      = parse_values loc instr_id params rest := by
  simp [parse_values, h]

/-- C9 witness: parameter 94 is unknown in a table holding only 93. -/
theorem c9_witness :
    parse_values 0 3 [(93, "int")] [.valueData 94 [⟨"whatever", none⟩]]
      = parse_values 0 3 [(93, "int")] [] :=
  c9_unknown_param_block_skipped 0 3 [(93, "int")] 94 [⟨"whatever", none⟩] [] rfl

/-! ### Claim C2 -/

/-- C2 (counterexample): a block for parameter 93 contains a bad entry
(`"x"` is not an integer) followed by a good entry.  The generator catches
nothing at entry level: it yields zero rows and the conversion error
escapes, terminating the stream — whereas the good entry alone would have
produced a row.  This contradicts "drops only that entry … and continues". -/
theorem c2_counterexample :
    parse_values 0 3 [(93, "int")]
      [.valueData 93 [⟨"2025-07-28T11:24:02.283+01:00", some "x"⟩,
                      ⟨"2025-07-28T11:24:03.283+01:00", some "2"⟩]]
      = ([], some "Cannot convert 'x' to int for param 93")
    ∧ parse_values 0 3 [(93, "int")]
      [.valueData 93 [⟨"2025-07-28T11:24:03.283+01:00", some "2"⟩]]
      = (["2025-07-28 10:24:03.283000+0\t3\t93\t2\t\\N"], none) := ⟨rfl, rfl⟩

/-- C2 (amended): a malformed timestamp or unconvertible value in a block
whose parameter is known is not caught per entry: the error escapes the
generator and terminates the iteration immediately — no row of the failing
entry, of later entries, or of later blocks is yielded. -/
theorem c2_row_failure_terminates_stream (loc instr_id : Int) (params : List (Nat × String))
    (pid : Nat) (ty : String) (ts : String) (v : Option String) (msg : String)
    (more : List ValueEntry) (rest : List XmlElem)
    (hty : lookupType pid params = some ty)
    (hfail : parse_ts_to_utc loc ts = .error msg ∨
      ((parse_ts_to_utc loc ts).isOk = true ∧ convert_value (toString pid) v ty = .error msg)) :
    parse_values loc instr_id params (.valueData pid (⟨ts, v⟩ :: more) :: rest)
      = ([], some msg) := by
  rcases hfail with h | ⟨hok, hconv⟩
  · simp [parse_values, hty, runEntries, h]
  · cases hp : parse_ts_to_utc loc ts with
    | error e => rw [hp] at hok; simp [Except.isOk, Except.toBool] at hok
    | ok out => simp [parse_values, hty, runEntries, hp, hconv]

/-- C2 witness: the unconvertible value `"x"` of an `int` parameter
terminates the stream with the conversion error. -/
theorem c2_witness :
    parse_values 0 3 [(93, "int")]
      [.valueData 93 [⟨"2025-07-28T11:24:02.283+01:00", some "x"⟩]]
      = ([], some "Cannot convert 'x' to int for param 93") :=
  c2_row_failure_terminates_stream 0 3 [(93, "int")] 93 "int"
    "2025-07-28T11:24:02.283+01:00" (some "x") "Cannot convert 'x' to int for param 93"
    [] [] rfl (Or.inr ⟨rfl, rfl⟩)

/-! ### Claim C7 -/

def oldInstRow : InstRow := ⟨1, "I", 100, "OldModel", "OldName", "OldTemplate", "OldServer"⟩

def instState : DbState := ⟨[oldInstRow], 2, [], 1, []⟩

def newImport : InstrDict := ⟨"I", 100, "NewModel", "NewName", "NewTemplate", "NewServer"⟩

/-- C7 (counterexample): importing an instrument that already exists (same
natural key `"I"`/serial 100) with new model/name/template/server values
returns the existing id but leaves the stored row completely unchanged —
the model stays `"OldModel"` although the import supplied `"NewModel"`. -/
theorem c7_counterexample :
    dbm_add_instrument instState newImport = (instState, (1, "NewName"))
    ∧ instState.instruments.map InstRow.model = ["OldModel"]
    ∧ newImport.model = "NewModel" := ⟨rfl, rfl, rfl⟩

/-- C7 (amended): when the instrument already exists (matched by name or
serial), `add_instrument` returns the existing stable id (and the name from
the import dict) and leaves the store state entirely unchanged: no field is
refreshed. -/
theorem c7_existing_instrument_not_refreshed (st : DbState) (d : InstrDict) (r : InstRow)
    (h : st.instruments.find?
          (fun r => r.instrument == d.instrument || r.serial == d.serial) = some r) :
    dbm_add_instrument st d = (st, (r.id, d.name)) := by
  simp [dbm_add_instrument, h]

/-- C7 witness: the concrete state of `c7_counterexample`. -/
theorem c7_witness :
    dbm_add_instrument instState newImport = (instState, (oldInstRow.id, newImport.name)) :=
  c7_existing_instrument_not_refreshed instState newImport oldInstRow rfl

/-! ### Claim C6 -/

/-- C6 (counterexample): running the enumeration upsert twice with the
identical input (one enum `"E"` with one member `"a"`) errors on the second
run: the `enum_values` insert has no conflict handling, so the duplicate
member row raises a uniqueness violation instead of being ignored. -/
theorem c6_counterexample :
    dbm_add_enumerations DbState.empty 1 [("E", [("a", 1)])]
      = .ok (⟨[], 1, [(1, 1, "E")], 2, [(1, "a", 1)]⟩, [("E", 1)])
    ∧ dbm_add_enumerations ⟨[], 1, [(1, 1, "E")], 2, [(1, "a", 1)]⟩ 1 [("E", [("a", 1)])]
      = .error "UniqueViolation: duplicate key in enum_values" := ⟨rfl, rfl⟩

/-- C6 (amended): the instrument upsert is idempotent (a second identical
run returns the same state and id), but the enumeration upsert is not safe
to repeat: for any instrument id, enum name and member, the first run from
an empty store succeeds while an immediate second identical run fails with
a uniqueness violation on the member-row insert. -/
theorem c6_enum_member_insert_not_idempotent (st : DbState) (d : InstrDict)
    (iid : Nat) (nm mem : String) (v : Int) :
    dbm_add_instrument (dbm_add_instrument st d).1 d = dbm_add_instrument st d
    ∧ (dbm_add_enumerations DbState.empty iid [(nm, [(mem, v)])]).isOk = true
    ∧ (Except.bind (dbm_add_enumerations DbState.empty iid [(nm, [(mem, v)])])
        (fun p => dbm_add_enumerations p.1 iid [(nm, [(mem, v)])])).isOk = false := by
  refine ⟨?_, ?_, ?_⟩
  · cases hf : st.instruments.find?
        (fun r => r.instrument == d.instrument || r.serial == d.serial) with
    | some r => simp [dbm_add_instrument, hf]
    | none =>
      simp [dbm_add_instrument, hf, List.find?_append, List.find?_cons]
  · simp [dbm_add_enumerations, insertEnumType, fetchEnumIds, lookupStr,
      insertEnumValues, insertEnumValue, DbState.empty, Except.isOk, Except.toBool]
  · simp [dbm_add_enumerations, insertEnumType, fetchEnumIds, lookupStr,
      insertEnumValues, insertEnumValue, DbState.empty, Except.bind,
      Except.isOk, Except.toBool]

/-! ### Claim C1 -/

/-- C1: in the actual pipeline composition, `parse_values` yields each row
as a single pre-joined string, but `stream_chunks` re-serializes each row
with `"\t".join(col for col in row)`; iterating a string yields its
characters, so the emitted line tab-separates every character (41 tabs
instead of the 4 separating the claimed 5 columns) and is not the row
followed by a newline. -/
theorem c1_pipeline_mangles_rows :
    parse_values 0 1 [(5, "int")] [.valueData 5 [⟨"2025-05-18T10:39:36.982+01:00", some "42"⟩]]
      = (["2025-05-18 09:39:36.982000+0\t1\t5\t42\t\\N"], none)
    ∧ (write_data_chunks ["2025-05-18 09:39:36.982000+0\t1\t5\t42\t\\N"] 65536).map
        (fun chunk => chunk.data.count '\t') = [41]
    ∧ write_data_chunks ["2025-05-18 09:39:36.982000+0\t1\t5\t42\t\\N"] 65536
      ≠ ["2025-05-18 09:39:36.982000+0\t1\t5\t42\t\\N" ++ "\n"] := by
  refine ⟨rfl, rfl, ?_⟩
  decide

/-! ### Claim C8 -/

def concatStrs (l : List String) : String := l.foldr (fun a b => a ++ b) ""

theorem concatStrs_cons (a : String) (l : List String) :
    concatStrs (a :: l) = a ++ concatStrs l := rfl

theorem utf8ByteSize_append (a b : String) :
    (a ++ b).utf8ByteSize = a.utf8ByteSize + b.utf8ByteSize := by
  cases a with
  | mk la =>
    cases b with
    | mk lb =>
      show (String.mk (la ++ lb)).utf8ByteSize = _
      simp [String.utf8ByteSize_mk]

/-- Splitting on `'\n'` (a trailing newline produces no empty final line). -/
def splitLinesL : List Char → List (List Char)
  | [] => []
  | c :: rest =>
    if c = '\n' then [] :: splitLinesL rest
    else
      match splitLinesL rest with
      | [] => [[c]]
      | line :: more => (c :: line) :: more

def joinLinesNl (lines : List (List Char)) : List Char :=
  lines.foldr (fun l acc => l ++ '\n' :: acc) []

theorem splitLinesL_line (line rest : List Char) (h : '\n' ∉ line) :
    splitLinesL (line ++ '\n' :: rest) = line :: splitLinesL rest := by
  induction line with
  | nil => simp [splitLinesL]
  | cons c l ih =>
    have hc : ¬ c = '\n' := fun hh => h (hh ▸ List.mem_cons_self c l)
    have hl : '\n' ∉ l := fun hm => h (List.mem_cons_of_mem _ hm)
    simp [splitLinesL, hc, ih hl]

theorem splitLinesL_joinLinesNl (lines : List (List Char)) (h : ∀ l ∈ lines, '\n' ∉ l) :
    splitLinesL (joinLinesNl lines) = lines := by
  induction lines with
  | nil => rfl
  | cons l ls ih =>
    have : joinLinesNl (l :: ls) = l ++ '\n' :: joinLinesNl ls := rfl
    rw [this, splitLinesL_line _ _ (h l (List.mem_cons_self l ls)),
      ih (fun x hx => h x (List.mem_cons_of_mem _ hx))]

theorem serializeRow_data (row : List String) :
    (serializeRow row).data = (serializeLine row).data ++ ['\n'] := by
  rw [serializeRow, String.data_append]

theorem streamGo_join (m : Nat) (rows : List (List String)) :
    ∀ (buf : String) (sz : Nat),
      concatStrs (streamGo m buf sz rows) = buf ++ concatStrs (rows.map serializeRow) := by
  induction rows with
  | nil =>
    intro buf sz
    by_cases hb : buf = ""
    · subst hb; simp [streamGo, concatStrs]
    · simp [streamGo, hb, concatStrs]
  | cons row rest ih =>
    intro buf sz
    simp only [streamGo]
    by_cases hcond : m ≤ sz + (serializeRow row).utf8ByteSize
    · rw [if_pos hcond, concatStrs_cons, ih "" 0, String.empty_append, List.map_cons,
        concatStrs_cons, String.append_assoc]
    · rw [if_neg hcond, ih, List.map_cons, concatStrs_cons, String.append_assoc]

theorem concat_serialize_data (rows : List (List String)) :
    (concatStrs (rows.map serializeRow)).data
      = joinLinesNl (rows.map (fun r => (serializeLine r).data)) := by
  induction rows with
  | nil => rfl
  | cons row rest ih =>
    rw [List.map_cons, concatStrs_cons, String.data_append, serializeRow_data, ih]
    simp [joinLinesNl]

theorem streamGo_sizes (m : Nat) (rows : List (List String)) :
    ∀ (buf : String) (sz : Nat), sz = buf.utf8ByteSize →
      ∀ chunk ∈ (streamGo m buf sz rows).dropLast, m ≤ chunk.utf8ByteSize := by
  induction rows with
  | nil =>
    intro buf sz _ c hc
    by_cases hb : buf = "" <;> simp [streamGo, hb] at hc
  | cons row rest ih =>
    intro buf sz hinv c hc
    simp only [streamGo] at hc
    by_cases hcond : m ≤ sz + (serializeRow row).utf8ByteSize
    · rw [if_pos hcond] at hc
      cases hrest : streamGo m "" 0 rest with
      | nil => rw [hrest] at hc; simp at hc
      | cons x xs =>
        rw [hrest, List.dropLast_cons₂] at hc
        rcases List.mem_cons.mp hc with rfl | hc'
        · rw [utf8ByteSize_append]
          omega
        · exact ih "" 0 rfl c (hrest ▸ hc')
    · rw [if_neg hcond] at hc
      exact ih (buf ++ serializeRow row) _ (by rw [utf8ByteSize_append, hinv]) c hc

theorem append_ne_empty_right (a b : String) (hb : b ≠ "") : a ++ b ≠ "" := by
  intro h
  have hd := congrArg String.data h
  rw [String.data_append] at hd
  have hbd : b.data = [] := (List.append_eq_nil.mp hd).2
  apply hb
  cases b with
  | mk lb => simp at hbd; rw [hbd]

theorem serializeRow_ne_empty (row : List String) : serializeRow row ≠ "" := by
  intro h
  have hd := congrArg String.data h
  rw [serializeRow_data] at hd
  simp at hd

theorem streamGo_chunks_ne_empty (m : Nat) (rows : List (List String)) :
    ∀ (buf : String) (sz : Nat), ∀ chunk ∈ streamGo m buf sz rows, chunk ≠ "" := by
  induction rows with
  | nil =>
    intro buf sz c hc
    by_cases hb : buf = ""
    · simp [streamGo, hb] at hc
    · simp [streamGo, hb] at hc
      rw [hc]; exact hb
  | cons row rest ih =>
    intro buf sz c hc
    simp only [streamGo] at hc
    by_cases hcond : m ≤ sz + (serializeRow row).utf8ByteSize
    · rw [if_pos hcond] at hc
      rcases List.mem_cons.mp hc with rfl | hc'
      · exact append_ne_empty_right _ _ (serializeRow_ne_empty row)
      · exact ih "" 0 c hc'
    · rw [if_neg hcond] at hc
      exact ih (buf ++ serializeRow row) _ c hc

/-- C8: for every finite row sequence and byte threshold, the chunker
flushes while the accumulated byte size has reached the threshold (every
chunk but the last is at least the threshold), flushes the non-empty
remainder at the end (no chunk is empty), and the concatenation of all
flushed chunks, split by line, reproduces exactly the serialized rows in
their original order (given that no serialized row contains a newline). -/
theorem c8_chunking_reproduces_rows (rows : List (List String)) (m : Nat)
    (hnl : ∀ row ∈ rows, '\n' ∉ (serializeLine row).data) :
    splitLinesL (concatStrs (stream_chunks rows m)).data
        = rows.map (fun r => (serializeLine r).data)
    ∧ (∀ chunk ∈ (stream_chunks rows m).dropLast, m ≤ chunk.utf8ByteSize)
    ∧ (∀ chunk ∈ stream_chunks rows m, chunk ≠ "") := by
  refine ⟨?_, streamGo_sizes m rows "" 0 rfl, streamGo_chunks_ne_empty m rows "" 0⟩
  rw [stream_chunks, streamGo_join, String.empty_append, concat_serialize_data]
  exact splitLinesL_joinLinesNl _ (by
    intro l hl
    obtain ⟨r, hr, rfl⟩ := List.mem_map.mp hl
    exact hnl r hr)

/-! ### Claim C4: instants

Reference meaning functions (proleptic Gregorian calendar, instants as
microseconds since the start of year 1, UTC). -/

/-- The instant denoted by the wire string the normalizer emits
(`YYYY-MM-DD HH:MM:SS.ffffff+0`, offset hour 0 = UTC), as the target store
reads it. -/
def outputDenotes (s : String) : Option Int :=
  match s.data with
  | [y1, y2, y3, y4, '-', a1, a2, '-', b1, b2, ' ', h1, h2, ':', n1, n2, ':', s1, s2, '.',
     f1, f2, f3, f4, f5, f6, '+', '0'] =>
    if [y1, y2, y3, y4, a1, a2, b1, b2, h1, h2, n1, n2, s1, s2,
        f1, f2, f3, f4, f5, f6].all Char.isDigit then
      some (((daysFromCivil (natOfDigits [y1, y2, y3, y4]) (natOfDigits [a1, a2])
          (natOfDigits [b1, b2]) * 86400
        + natOfDigits [h1, h2] * 3600 + natOfDigits [n1, n2] * 60
        + natOfDigits [s1, s2]) * 1000000 + natOfDigits [f1, f2, f3, f4, f5, f6] : Nat))
    else none
  | _ => none

/-- An input timestamp `YYYY-MM-DDTHH:MM:SS.mmm±HH:MM` (colon-separated
numeric offset, millisecond fraction). -/
def mkIsoColon (y mo d h mi s ms oh om : Nat) (neg : Bool) : String :=
  String.mk (pad4 y ++ '-' :: pad2 mo ++ '-' :: pad2 d ++ 'T' :: pad2 h ++ ':' :: pad2 mi ++
    ':' :: pad2 s ++ '.' :: pad3 ms ++ (if neg then '-' else '+') :: pad2 oh ++ ':' :: pad2 om)

/-- The instant denoted by `mkIsoColon y mo d h mi s ms oh om neg`. -/
def isoColonDenotes (y mo d h mi s ms oh om : Nat) (neg : Bool) : Int :=
  epochUs ⟨y, mo, d, h, mi, s, ms * 1000, none⟩
    - (if neg then -(((oh * 3600 + om * 60) * 1000000 : Nat) : Int)
       else (((oh * 3600 + om * 60) * 1000000 : Nat) : Int))

/-! Digit-reconstruction lemmas -/

theorem natOfDigits2 (n : Nat) (h : n ≤ 99) :
    natOfDigits [digitChar (n / 10), digitChar n] = n := by
  simp [natOfDigits, digitVal_digitChar]
  omega

theorem natOfDigits3 (n : Nat) (h : n ≤ 999) :
    natOfDigits [digitChar (n / 100), digitChar (n / 10), digitChar n] = n := by
  simp [natOfDigits, digitVal_digitChar]
  omega

theorem natOfDigits4 (n : Nat) (h : n ≤ 9999) :
    natOfDigits [digitChar (n / 1000), digitChar (n / 100), digitChar (n / 10), digitChar n]
      = n := by
  simp [natOfDigits, digitVal_digitChar]
  omega

theorem natOfDigits6 (n : Nat) (h : n ≤ 999999) :
    natOfDigits [digitChar (n / 100000), digitChar (n / 10000), digitChar (n / 1000),
      digitChar (n / 100), digitChar (n / 10), digitChar n] = n := by
  simp [natOfDigits, digitVal_digitChar]
  omega

theorem isDigit_ne (c c' : Char) (h : c.isDigit = true) (h' : c'.isDigit = false) :
    ¬ c = c' := by
  intro e
  rw [e, h'] at h
  exact Bool.noConfusion h

/-- C4 (counterexample): the Z-suffixed UTC input `2025-05-18T10:39:36.982Z`
denotes `…36.982` UTC, but the colon-stripping slice deletes the digit `8`,
so the normalizer returns `…36.920000+0` — a different instant (62 ms off) —
even under the most favorable host timezone (UTC, `loc = 0`). -/
theorem c4_counterexample :
    parse_ts_to_utc 0 "2025-05-18T10:39:36.982Z" = .ok "2025-05-18 10:39:36.920000+0"
    ∧ outputDenotes "2025-05-18 10:39:36.920000+0"
        = some (epochUs ⟨2025, 5, 18, 10, 39, 36, 920000, none⟩)
    ∧ epochUs ⟨2025, 5, 18, 10, 39, 36, 920000, none⟩
        ≠ epochUs ⟨2025, 5, 18, 10, 39, 36, 982000, none⟩ := ⟨rfl, rfl, by decide⟩

/-! Calendar arithmetic -/

theorem daysInMonth_le (y m : Nat) : daysInMonth y m ≤ 31 := by
  unfold daysInMonth
  split
  · split <;> omega
  all_goals omega

theorem daysInMonth_pos (y m : Nat) : 1 ≤ daysInMonth y m := by
  unfold daysInMonth
  split
  · split <;> omega
  all_goals omega

theorem daysBeforeYear_lb (y : Nat) (h : 2 ≤ y) : 365 ≤ daysBeforeYear y := by
  have hcd : (y - 1) / 100 ≤ (y - 1) / 4 := Nat.div_le_div_left (by norm_num) (by norm_num)
  unfold daysBeforeYear
  omega

theorem daysBeforeYear_ub (y : Nat) (h : y ≤ 9998) : daysBeforeYear y ≤ 3651428 := by
  have hcd : (y - 1) / 100 ≤ (y - 1) / 4 := Nat.div_le_div_left (by norm_num) (by norm_num)
  unfold daysBeforeYear
  omega

theorem daysBeforeMonth_le (y m : Nat) : daysBeforeMonth y m ≤ 335 := by
  cases hL : isLeap y <;>
    rcases m with _|_|_|_|_|_|_|_|_|_|_|_|m <;>
    simp [daysBeforeMonth, hL] <;> omega

theorem daysBeforeMonth_succ (y m : Nat) (h1 : 1 ≤ m) (h2 : m ≤ 11) :
    daysBeforeMonth y (m + 1) = daysBeforeMonth y m + daysInMonth y m := by
  interval_cases m <;> cases hL : isLeap y <;>
    simp [daysBeforeMonth, daysInMonth, hL]

set_option maxHeartbeats 2000000 in
theorem daysBeforeYear_succ (y : Nat) (h : 1 ≤ y) :
    daysBeforeYear (y + 1) = daysBeforeYear y + 365 + (if isLeap y then 1 else 0) := by
  cases hL : isLeap y with
  | false =>
    rw [if_neg (Bool.false_ne_true)]
    unfold isLeap at hL
    simp at hL
    unfold daysBeforeYear
    omega
  | true =>
    rw [if_pos rfl]
    unfold isLeap at hL
    simp at hL
    unfold daysBeforeYear
    omega

theorem daysFromCivil_nextDay (y m d : Nat) (hy : 1 ≤ y) (hm1 : 1 ≤ m) (hm2 : m ≤ 12)
    (hd1 : 1 ≤ d) (hd2 : d ≤ daysInMonth y m) :
    daysFromCivil (nextDay (y, m, d)).1 (nextDay (y, m, d)).2.1 (nextDay (y, m, d)).2.2
      = daysFromCivil y m d + 1 := by
  unfold nextDay
  by_cases h : d < daysInMonth y m
  · simp [h, daysFromCivil]
    omega
  · have hdd : d = daysInMonth y m := by omega
    by_cases hm : m < 12
    · simp [h, hm, daysFromCivil]
      rw [daysBeforeMonth_succ y m hm1 (by omega)]
      omega
    · have hm12 : m = 12 := by omega
      subst hm12
      have hd31 : d = 31 := by
        rw [hdd]; rfl
      subst hd31
      simp [h, hm, daysFromCivil]
      rw [daysBeforeYear_succ y hy]
      cases hL : isLeap y <;> simp [daysBeforeMonth, hL] <;> omega

theorem daysFromCivil_prevDay (y m d : Nat) (hy : 2 ≤ y) (hm1 : 1 ≤ m) (hm2 : m ≤ 12)
    (hd1 : 1 ≤ d) (hd2 : d ≤ daysInMonth y m) :
    daysFromCivil (prevDay (y, m, d)).1 (prevDay (y, m, d)).2.1 (prevDay (y, m, d)).2.2 + 1
      = daysFromCivil y m d := by
  unfold prevDay
  by_cases h : 1 < d
  · simp [h, daysFromCivil]
    omega
  · have hd' : d = 1 := by omega
    subst hd'
    by_cases hm : 1 < m
    · simp [h, hm, daysFromCivil]
      have hs := daysBeforeMonth_succ y (m - 1) (by omega) (by omega)
      have hp := daysInMonth_pos y (m - 1)
      have : m - 1 + 1 = m := by omega
      rw [this] at hs
      omega
    · have hm1' : m = 1 := by omega
      subst hm1'
      simp [h, hm, daysFromCivil]
      have hs := daysBeforeYear_succ (y - 1) (by omega)
      have : y - 1 + 1 = y := by omega
      rw [this] at hs
      cases hL : isLeap (y - 1) <;> simp [daysBeforeMonth, hL] at hs ⊢ <;> omega

theorem nextDay_bounds (y m d : Nat) (hm1 : 1 ≤ m) (hm2 : m ≤ 12)
    (hd1 : 1 ≤ d) (hd2 : d ≤ daysInMonth y m) :
    y ≤ (nextDay (y, m, d)).1 ∧ (nextDay (y, m, d)).1 ≤ y + 1
    ∧ 1 ≤ (nextDay (y, m, d)).2.1 ∧ (nextDay (y, m, d)).2.1 ≤ 12
    ∧ 1 ≤ (nextDay (y, m, d)).2.2 ∧ (nextDay (y, m, d)).2.2 ≤ 31 := by
  have h31 := daysInMonth_le y m
  unfold nextDay
  by_cases h : d < daysInMonth y m
  · simp [h]; omega
  · by_cases hm : m < 12 <;> simp [h, hm] <;> omega

theorem prevDay_bounds (y m d : Nat) (hy : 2 ≤ y) (hm1 : 1 ≤ m) (hm2 : m ≤ 12)
    (hd1 : 1 ≤ d) (hd2 : d ≤ daysInMonth y m) :
    y - 1 ≤ (prevDay (y, m, d)).1 ∧ (prevDay (y, m, d)).1 ≤ y
    ∧ 1 ≤ (prevDay (y, m, d)).2.1 ∧ (prevDay (y, m, d)).2.1 ≤ 12
    ∧ 1 ≤ (prevDay (y, m, d)).2.2 ∧ (prevDay (y, m, d)).2.2 ≤ 31 := by
  have h31 := daysInMonth_le y m
  have h31' := daysInMonth_le y (m - 1)
  have hp := daysInMonth_pos y (m - 1)
  unfold prevDay
  by_cases h : 1 < d
  · simp [h]; omega
  · by_cases hm : 1 < m <;> simp [h, hm] <;> omega

theorem addDays_zero (p : Nat × Nat × Nat) : addDays 0 p = p := by
  simp [addDays]

theorem addDays_one (p : Nat × Nat × Nat) : addDays 1 p = nextDay p := by
  simp [addDays]

theorem addDays_negone (p : Nat × Nat × Nat) : addDays (-1) p = prevDay p := by
  simp [addDays]

/-- `astimezone(timezone.utc)` preserves the denoted instant and produces
in-range fields, for any offset smaller than one day and any datetime away
from the calendar boundaries. -/
theorem astimezoneUtc_spec (loc : Int) (dt : PyDateTime)
    (hy1 : 2 ≤ dt.year) (hy2 : dt.year ≤ 9998)
    (hm1 : 1 ≤ dt.month) (hm2 : dt.month ≤ 12)
    (hd1 : 1 ≤ dt.day) (hd2 : dt.day ≤ daysInMonth dt.year dt.month)
    (hh : dt.hour ≤ 23) (hmi : dt.minute ≤ 59) (hs : dt.second ≤ 59) (hus : dt.usec ≤ 999999)
    (ho1 : dt.tz.getD loc < 86400000000) (ho2 : -86400000000 < dt.tz.getD loc) :
    epochUs (astimezoneUtc loc dt) = epochUs dt - dt.tz.getD loc
    ∧ 1 ≤ (astimezoneUtc loc dt).year ∧ (astimezoneUtc loc dt).year ≤ 9999
    ∧ (astimezoneUtc loc dt).month ≤ 12 ∧ (astimezoneUtc loc dt).day ≤ 31
    ∧ (astimezoneUtc loc dt).hour ≤ 23 ∧ (astimezoneUtc loc dt).minute ≤ 59
    ∧ (astimezoneUtc loc dt).second ≤ 59 ∧ (astimezoneUtc loc dt).usec ≤ 999999 := by
  obtain ⟨y, mo, d, h, mi, s, us, tz⟩ := dt
  simp only at hy1 hy2 hm1 hm2 hd1 hd2 hh hmi hs hus ho1 ho2
  simp only [astimezoneUtc, epochUs, usPerDay] at *
  set off := tz.getD loc with hoffdef
  set t : Int := ((h * 3600 + mi * 60 + s) * 1000000 + us : Nat) - off with htdef
  have htlo : -86400000000 < t := by omega
  have hthi : t < 2 * 86400000000 := by omega
  have hq3 : t / 86400000000 = -1 ∨ t / 86400000000 = 0 ∨ t / 86400000000 = 1 := by omega
  have h31 := daysInMonth_le y mo
  rcases hq3 with hq | hq | hq <;> rw [hq]
  · rw [addDays_negone]
    have hP := daysFromCivil_prevDay y mo d hy1 hm1 hm2 hd1 hd2
    have hB := prevDay_bounds y mo d hy1 hm1 hm2 hd1 hd2
    omega
  · rw [addDays_zero]
    dsimp only
    omega
  · rw [addDays_one]
    have hN := daysFromCivil_nextDay y mo d (by omega) hm1 hm2 hd1 hd2
    have hB := nextDay_bounds y mo d hm1 hm2 hd1 hd2
    omega

/-- The emitted wire string denotes exactly the UTC instant of the rendered
datetime, whenever its fields are within the rendered widths. -/
theorem outputDenotes_render (dt : PyDateTime)
    (hy2 : dt.year ≤ 9999) (hmo : dt.month ≤ 99) (hd : dt.day ≤ 99)
    (hh : dt.hour ≤ 99) (hmi : dt.minute ≤ 99) (hs : dt.second ≤ 99)
    (hus : dt.usec ≤ 999999) :
    outputDenotes (String.mk (dropSuffix 3 (renderStrf dt))) = some (epochUs dt) := by
  rw [dropSuffix_render dt]
  simp only [outputDenotes]
  rw [if_pos (by simp [isDigit_digitChar])]
  rw [natOfDigits4 _ hy2, natOfDigits2 _ hmo, natOfDigits2 _ hd, natOfDigits2 _ hh,
    natOfDigits2 _ hmi, natOfDigits2 _ hs, natOfDigits6 _ hus]
  rfl

/-! Print–parse lemmas for the five `strptime` formats on a rendered
colon-offset input. -/

theorem lit_cons (ch : Char) (r : List Char) : lit ch (ch :: r) = some r := by
  simp [lit]

theorem lit_cons_ne (ch c : Char) (h : ¬ c = ch) (r : List Char) :
    lit ch (c :: r) = none := by
  simp [lit, h]

theorem litCI_cons (ch : Char) (r : List Char) : litCI ch (ch :: r) = some r := by
  simp [litCI]

theorem litCI_cons_ne (ch c : Char) (h1 : ¬ c = ch) (h2 : ¬ c = ch.toLower)
    (r : List Char) :
    litCI ch (c :: r) = none := by
  simp [litCI, h1, h2]

theorem rd2or1_pad2 (lo2 hi2 lo1 hi1 n : Nat) (h1 : lo2 ≤ n) (h2 : n ≤ hi2) (h99 : n ≤ 99)
    (r : List Char) :
    rd2or1 lo2 hi2 lo1 hi1 (pad2 n ++ r) = some (n, r) := by
  have hv : 10 * digitVal (digitChar (n / 10)) + digitVal (digitChar n) = n := by
    rw [digitVal_digitChar, digitVal_digitChar]
    omega
  simp [pad2, rd2or1, isDigit_digitChar, hv, h1, h2]

theorem rd4_pad4 (n : Nat) (h : n ≤ 9999) (r : List Char) :
    rd4 (pad4 n ++ r) = some (n, r) := by
  simp [pad4, rd4, isDigit_digitChar, digitVal_digitChar]
  omega

theorem rdFrac_pad3 (ms : Nat) (hms : ms ≤ 999) (c : Char) (hc : c.isDigit = false)
    (r : List Char) :
    rdFrac (pad3 ms ++ c :: r) = some (ms * 1000, c :: r) := by
  simp [rdFrac, pad3, isDigit_digitChar, hc, digitVal_digitChar, natOfDigits]
  omega

theorem rd2digits_pad2 (n : Nat) (h : n ≤ 99) (r : List Char) :
    rd2digits (pad2 n ++ r) = some (n, r) := by
  simp [rd2digits, pad2, isDigit_digitChar, digitVal_digitChar]
  omega

theorem rd2mm_pad2 (n : Nat) (h : n ≤ 59) (r : List Char) :
    rd2mm (pad2 n ++ r) = some (n, r) := by
  have h5 : digitVal (digitChar (n / 10)) ≤ 5 := by
    rw [digitVal_digitChar]
    omega
  simp [rd2mm, pad2, isDigit_digitChar, digitVal_digitChar, h5]
  omega

theorem rdTz_hhmm (oh om : Nat) (hoh : oh ≤ 99) (hom : om ≤ 59) (neg : Bool) :
    rdTz ((if neg then '-' else '+') :: (pad2 oh ++ pad2 om))
      = some ((if neg then -(((oh * 3600 + om * 60) * 1000000 : Nat) : Int)
               else (((oh * 3600 + om * 60) * 1000000 : Nat) : Int)), []) := by
  have hcolon : ¬ digitChar (om / 10) = ':' :=
    isDigit_ne _ _ (isDigit_digitChar _) (by decide)
  have hm2' : rd2mm (pad2 om) = some (om, []) := by
    have := rd2mm_pad2 om hom []
    simpa using this
  have hhead : (pad2 om).head? = some (digitChar (om / 10)) := rfl
  have hsec : rdTzSec [] = (0, 0, []) := rfl
  cases neg <;>
    simp [rdTz, rd2digits_pad2 oh hoh, hhead, hcolon, hm2', hsec]

theorem tsFix_mkIsoColon (y mo d h mi s ms oh om : Nat) (neg : Bool) :
    tsFix (mkIsoColon y mo d h mi s ms oh om neg).data
      = pad4 y ++ '-' :: (pad2 mo ++ '-' :: (pad2 d ++ 'T' :: (pad2 h ++ ':' :: (pad2 mi ++
          ':' :: (pad2 s ++ '.' :: (pad3 ms ++
            (if neg then '-' else '+') :: (pad2 oh ++ pad2 om))))))) := by
  cases neg <;> rfl

theorem rdCore_mkIso (y mo d h mi s : Nat) (hy : y ≤ 9999) (hmo1 : 1 ≤ mo) (hmo2 : mo ≤ 12)
    (hd1 : 1 ≤ d) (hd2 : d ≤ 31) (hh : h ≤ 23) (hmi : mi ≤ 59) (hs : s ≤ 59) (r : List Char) :
    rdCore (pad4 y ++ '-' :: (pad2 mo ++ '-' :: (pad2 d ++ 'T' :: (pad2 h ++ ':' :: (pad2 mi
        ++ ':' :: (pad2 s ++ r))))))
      = some ((y, mo, d, h, mi, s), r) := by
  simp only [rdCore, rdMonth, rdDay, rdHour, rdMinute, rdSecond,
    rd4_pad4 y hy, lit_cons, litCI_cons,
    rd2or1_pad2 1 12 1 9 mo hmo1 hmo2 (by omega),
    rd2or1_pad2 1 31 1 9 d hd1 hd2 (by omega),
    rd2or1_pad2 0 23 0 9 h (by omega) hh (by omega),
    rd2or1_pad2 0 59 0 9 mi (by omega) hmi (by omega),
    rd2or1_pad2 0 61 0 9 s (by omega) (by omega) (by omega)]

theorem tryFormats_mkIso (y mo d h mi s ms oh om : Nat) (neg : Bool)
    (hy1 : 1 ≤ y) (hy4 : y ≤ 9999) (hmo1 : 1 ≤ mo) (hmo2 : mo ≤ 12)
    (hd1 : 1 ≤ d) (hd2 : d ≤ daysInMonth y mo) (hh : h ≤ 23) (hmi : mi ≤ 59) (hs : s ≤ 59)
    (hms : ms ≤ 999) (hoh : oh ≤ 23) (hom : om ≤ 59) :
    tryFormats (tsFix (mkIsoColon y mo d h mi s ms oh om neg).data)
      = some ⟨y, mo, d, h, mi, s, ms * 1000,
          some (if neg then -(((oh * 3600 + om * 60) * 1000000 : Nat) : Int)
                else (((oh * 3600 + om * 60) * 1000000 : Nat) : Int))⟩ := by
  rw [tsFix_mkIsoColon]
  have hd31 : d ≤ 31 := le_trans hd2 (daysInMonth_le y mo)
  have hvalid : ∀ o : Int, o < 86400000000 → -86400000000 < o →
      dtValid y mo d s (some o) = true := by
    intro o h1 h2
    simp [dtValid, hy1, hd2, hs, h1, h2]
  have hN : (((oh * 3600 + om * 60) * 1000000 : Nat) : Int) < 86400000000 := by omega
  have hN2 : (0 : Int) ≤ (((oh * 3600 + om * 60) * 1000000 : Nat) : Int) := by omega
  cases neg with
  | false =>
    simp only [if_neg (Bool.false_ne_true)]
    have hTz : rdTz ('+' :: (pad2 oh ++ pad2 om))
        = some ((((oh * 3600 + om * 60) * 1000000 : Nat) : Int), []) := by
      simpa using rdTz_hhmm oh om (by omega) hom false
    have hv := hvalid ((((oh * 3600 + om * 60) * 1000000 : Nat) : Int)) (by omega) (by omega)
    simp only [tryFormats, strptimeA, strptimeB, strptimeC, strptimeD,
      rdCore_mkIso y mo d h mi s hy4 hmo1 hmo2 hd1 hd31 hh hmi hs,
      lit_cons, litCI_cons_ne 'Z' '.' (by decide) (by decide),
      litCI_cons_ne 'Z' '+' (by decide) (by decide),
      rdFrac_pad3 ms hms '+' (by decide), hTz, mkDT, hv, List.isEmpty_nil, if_true]
  | true =>
    simp only [if_pos rfl]
    have hTz : rdTz ('-' :: (pad2 oh ++ pad2 om))
        = some (-(((oh * 3600 + om * 60) * 1000000 : Nat) : Int), []) := by
      simpa using rdTz_hhmm oh om (by omega) hom true
    have hv := hvalid (-(((oh * 3600 + om * 60) * 1000000 : Nat) : Int)) (by omega) (by omega)
    simp only [tryFormats, strptimeA, strptimeB, strptimeC, strptimeD,
      rdCore_mkIso y mo d h mi s hy4 hmo1 hmo2 hd1 hd31 hh hmi hs,
      lit_cons, litCI_cons_ne 'Z' '.' (by decide) (by decide),
      litCI_cons_ne 'Z' '-' (by decide) (by decide),
      rdFrac_pad3 ms hms '-' (by decide), hTz, mkDT, hv, List.isEmpty_nil, if_true]

/-- C4 (amended): for every input of the colon-separated numeric-offset
form `YYYY-MM-DDTHH:MM:SS.mmm±HH:MM` (valid date away from the calendar
boundaries, offset below 24 h), normalization preserves the denoted
instant: the returned UTC wire string denotes exactly the instant the
original input denotes, to microsecond precision, for every host timezone.
(Z-suffixed inputs are excluded: `c4_counterexample` shows the colon-strip
corrupts their fractional digits.) -/
theorem c4_colon_offset_roundtrip (loc : Int) (y mo d h mi s ms oh om : Nat) (neg : Bool)
    (hy1 : 2 ≤ y) (hy2 : y ≤ 9998) (hmo1 : 1 ≤ mo) (hmo2 : mo ≤ 12)
    (hd1 : 1 ≤ d) (hd2 : d ≤ daysInMonth y mo) (hh : h ≤ 23) (hmi : mi ≤ 59) (hs : s ≤ 59)
    (hms : ms ≤ 999) (hoh : oh ≤ 23) (hom : om ≤ 59) :
    ∃ out, parse_ts_to_utc loc (mkIsoColon y mo d h mi s ms oh om neg) = .ok out
      ∧ outputDenotes out = some (isoColonDenotes y mo d h mi s ms oh om neg) := by
  have htry := tryFormats_mkIso y mo d h mi s ms oh om neg (by omega) (by omega)
    hmo1 hmo2 hd1 hd2 hh hmi hs hms hoh hom
  set dt0 : PyDateTime := ⟨y, mo, d, h, mi, s, ms * 1000,
    some (if neg then -(((oh * 3600 + om * 60) * 1000000 : Nat) : Int)
          else (((oh * 3600 + om * 60) * 1000000 : Nat) : Int))⟩ with hdt0
  have hoff1 : dt0.tz.getD loc < 86400000000 := by
    cases neg <;> simp [hdt0] <;> omega
  have hoff2 : -86400000000 < dt0.tz.getD loc := by
    cases neg <;> simp [hdt0] <;> omega
  have hspec := astimezoneUtc_spec loc dt0 hy1 hy2 hmo1 hmo2 hd1 hd2 hh hmi hs
    (by simp [hdt0]; omega) hoff1 hoff2
  obtain ⟨heq, hb1, hb2, hb3, hb4, hb5, hb6, hb7, hb8⟩ := hspec
  have hmle := daysBeforeMonth_le y mo
  have hdim := daysInMonth_le y mo
  have hylb := daysBeforeYear_lb y hy1
  have hyub := daysBeforeYear_ub y hy2
  have hmax : maxInstant = 315537897600000000 := rfl
  have hg : 0 ≤ utcInstant loc dt0 ∧ utcInstant loc dt0 < maxInstant := by
    rw [hmax]
    unfold utcInstant epochUs daysFromCivil
    cases neg <;> simp [hdt0] <;> omega
  refine ⟨String.mk (dropSuffix 3 (renderStrf (astimezoneUtc loc dt0))), ?_, ?_⟩
  · simp only [parse_ts_to_utc, htry]
    rw [if_pos hg]
  · rw [outputDenotes_render _ hb2 (by omega) (by omega) (by omega) (by omega)
      (by omega) hb8, heq, hdt0]
    rfl

/-- C4 witness: a concrete end-of-year instantiation of
`c4_colon_offset_roundtrip` with a negative offset and a nonzero host
timezone, crossing a year boundary. -/
theorem c4_witness :
    (2 ≤ 2025 ∧ 31 ≤ daysInMonth 2025 12)
    ∧ ∃ out, parse_ts_to_utc 3600000000 (mkIsoColon 2025 12 31 23 59 59 982 2 30 true)
        = .ok out
      ∧ outputDenotes out = some (isoColonDenotes 2025 12 31 23 59 59 982 2 30 true) :=
  ⟨⟨by omega, by decide⟩,
   c4_colon_offset_roundtrip 3600000000 2025 12 31 23 59 59 982 2 30 true
     (by omega) (by omega) (by omega) (by omega) (by omega) (by decide)
     (by omega) (by omega) (by omega) (by omega) (by omega) (by omega)⟩

/-- C8 witness: three concrete rows with a 5-byte threshold produce two
flushes that together reproduce the rows. -/
theorem c8_witness :
    (∀ row ∈ [["a", "1"], ["bb", "22"], ["c", "3"]], '\n' ∉ (serializeLine row).data)
    ∧ (splitLinesL (concatStrs (stream_chunks [["a", "1"], ["bb", "22"], ["c", "3"]] 5)).data
        = [["a", "1"], ["bb", "22"], ["c", "3"]].map (fun r => (serializeLine r).data)
      ∧ (∀ chunk ∈ (stream_chunks [["a", "1"], ["bb", "22"], ["c", "3"]] 5).dropLast,
          5 ≤ chunk.utf8ByteSize)
      ∧ (∀ chunk ∈ stream_chunks [["a", "1"], ["bb", "22"], ["c", "3"]] 5, chunk ≠ "")) :=
  ⟨by decide, c8_chunking_reproduces_rows [["a", "1"], ["bb", "22"], ["c", "3"]] 5 (by decide)⟩

end EmHealth





